import Mathlib

/-!
Shallow embedding of the request-orchestration and deduplication core of the
colly-style web crawler in `result.go`.  Pure Go functions become Lean
functions; the fingerprint store (`storage.Storage`) is modelled as the list of
recorded `uint64` fingerprints carried in the `Collector`; regular expressions
are modelled as boolean predicates on strings; the WHATWG URL normalizer
(`normalizeURL`, an external library call) is a function parameter `normalize`;
the outcome of the network-dependent robots.txt consultation (`checkRobots`)
is an `Option RobotsOutcome` parameter.  `uint64` arithmetic is `Nat` with an
explicit `% 2 ^ 64`.
-/

namespace Colly

/-- Error values of `result.go` (the `Err...` variables plus the structured
`AlreadyVisitedError`, the `http.ErrUseLastResponse` sentinel, the
`fmt.Errorf` wrapper used by `checkRedirectFunc`, and a constructor standing
for arbitrary transport errors). `panicEmptyVia` marks the Go runtime panic
that would occur if the redirect chain `via` were empty. -/
inductive CollyErr where
  | forbiddenDomain
  | maxDepth
  | forbiddenURL
  | noURLFiltersMatch
  | robotsTxtBlocked
  | maxRequests
  | retryBodyUnseekable
  | alreadyVisited (url : String)
  | useLastResponse
  | notFollowingRedirect (e : CollyErr)
  | panicEmptyVia
  | other (s : String)
deriving Repr, DecidableEq

/-- Outcome of the robots.txt consultation `checkRobots` (network-dependent,
hence a parameter of `requestCheck`): the URL is blocked, or fetching/parsing
robots.txt failed with a transport error. -/
inductive RobotsOutcome where
  | blocked
  | fetchFailed (s : String)
deriving Repr, DecidableEq

/-- Map a robots outcome to the error `requestCheck` would return
(`ErrRobotsTxtBlocked`, or the transport error passed through). -/
def robotsErr : RobotsOutcome → CollyErr
  | .blocked => .robotsTxtBlocked
  | .fetchFailed s => .other s

/-- An `http.Header`, modelled as an association list of key/value pairs
(one entry per value, as produced by `Header.Add`). -/
abbrev HeaderList := List (String × String)

/-- A request body reader (`io.Reader`): its bytes, the current read
position, whether it implements `io.ReadSeeker` (`seekable`), and whether
`http.NewRequest` recognizes its concrete type and installs a non-nil
`GetBody` (`reopenable`, true for `bytes.Reader` / `strings.Reader` /
`bytes.Buffer`). -/
structure BodyStream where
  data : List Nat
  pos : Nat
  seekable : Bool
  reopenable : Bool
deriving Repr, DecidableEq

/-- A request as seen by the redirect interceptor: `req.URL.String()`,
`req.URL.Hostname()`, `req.URL.Host`, the bytes `req.GetBody` would replay
(`none` when `GetBody` is nil), and `req.Header`. -/
structure RedirectReq where
  url : String
  hostname : String
  host : String
  getBody : Option (List Nat)
  headers : HeaderList

/-- The `Collector` fields read by the embedded operations, plus the
fingerprint store contents. `MaxDepth` is a Go `int`, `MaxRequests` and
`requestCount` are `uint32`. A nil and an empty `AllowedDomains` slice are
indistinguishable to `isDomainAllowed`, so both are the empty list. The
URL-filter regexes are boolean predicates; `redirectHandler` returns the Go
error (`none` = nil = keep following). -/
structure Collector where
  UserAgent : String
  Headers : Option HeaderList
  MaxDepth : Int
  MaxRequests : Nat
  requestCount : Nat
  AllowedDomains : List String
  DisallowedDomains : List String
  DisallowedURLFilters : List (String → Bool)
  URLFilters : List (String → Bool)
  AllowURLRevisit : Bool
  IgnoreRobotsTxt : Bool
  redirectHandler : Option (RedirectReq → List RedirectReq → Option CollyErr)
  store : List Nat

/-- The 64-bit FNV-1a offset basis used by `fnv.New64a()`. -/
def fnvOffsetBasis : Nat := 14695981039346656037

/-- The 64-bit FNV prime. -/
def fnvPrime : Nat := 1099511628211

/-- One step of FNV-1a on one byte: xor, then multiply, modulo 2^64. -/
def fnvStep (h : Nat) (b : Nat) : Nat := ((h ^^^ b) * fnvPrime) % 2 ^ 64

/-- FNV-64a over a byte sequence, as computed by writing the bytes to
`fnv.New64a()` and taking `Sum64()`. -/
def fnv64a (bytes : List Nat) : Nat := bytes.foldl fnvStep fnvOffsetBasis

/-- UTF-8 bytes of a string, as `io.WriteString` feeds them to the hash. -/
def strBytes (s : String) : List Nat := s.toUTF8.toList.map (fun b => b.toNat)

/-- `requestHash(url, body)`: FNV-64a of the normalized URL's bytes followed
by the body bytes (`io.Copy` appends nothing when the body reader is nil).
It takes no method and no headers. -/
def requestHash (normalize : String → String) (url : String)
    (body : Option (List Nat)) : Nat :=
  fnv64a (strBytes (normalize url) ++ body.getD [])

/-- `isMatchingFilter`: does any regex in the list match the URL. -/
def isMatchingFilter (fs : List (String → Bool)) (d : String) : Bool :=
  fs.any (fun r => r d)

/-- `Collector.isDomainAllowed`: the disallowed list rejects by exact string
equality; then a nil/empty allowed list admits everything; otherwise the
domain must appear in the allowed list by exact string equality. -/
def Collector.isDomainAllowed (c : Collector) (domain : String) : Bool :=
  if domain ∈ c.DisallowedDomains then false
  else if c.AllowedDomains.isEmpty then true
  else decide (domain ∈ c.AllowedDomains)

/-- `Collector.checkFilters`: disallowed URL filters, then URL filters, then
the domain check, first failure wins. -/
def checkFilters (c : Collector) (URL domain : String) : Option CollyErr :=
  if c.DisallowedURLFilters.length > 0 ∧ isMatchingFilter c.DisallowedURLFilters URL then
    some .forbiddenURL
  else if c.URLFilters.length > 0 ∧ ¬ isMatchingFilter c.URLFilters URL then
    some .noURLFiltersMatch
  else if ¬ c.isDomainAllowed domain then
    some .forbiddenDomain
  else
    none

/-- `Collector.requestCheck(parsedURL, method, getBody, depth, checkRevisit)`:
depth limit, request budget, filters, robots (skipped for HEAD or when
`IgnoreRobotsTxt`), then the revisit check (skipped when `checkRevisit` is
false or `AllowURLRevisit`; skipped for non-GET methods with nil `GetBody`).
`u` is `parsedURL.String()`, `host` is `parsedURL.Hostname()`.  On success
returns the resulting fingerprint store (`Visited` records the hash). -/
def requestCheck (normalize : String → String) (c : Collector)
    (robots : Option RobotsOutcome) (u host method : String)
    (getBody : Option (List Nat)) (depth : Int) (checkRevisit : Bool) :
    Except CollyErr (List Nat) :=
  if 0 < c.MaxDepth ∧ c.MaxDepth < depth then
    .error .maxDepth
  else if 0 < c.MaxRequests ∧ c.MaxRequests ≤ c.requestCount then
    .error .maxRequests
  else
    match checkFilters c u host with
    | some e => .error e
    | none =>
      match (if method ≠ "HEAD" ∧ ¬ c.IgnoreRobotsTxt then robots.map robotsErr else none) with
      | some e => .error e
      | none =>
        if checkRevisit ∧ ¬ c.AllowURLRevisit then
          if method ≠ "GET" ∧ getBody = none then
            .ok c.store
          else
            if requestHash normalize u getBody ∈ c.store then
              .error (.alreadyVisited u)
            else
              .ok (requestHash normalize u getBody :: c.store)
        else
          .ok c.store

/-- The header-preparation fragment of `scrape`: when the caller passed a nil
header set, start from a copy of the collector's default `Headers` (or empty);
then inject the collector's `UserAgent` when no `User-Agent` key is present. -/
def scrapeHeaders (c : Collector) (hdr : Option HeaderList) : HeaderList :=
  let h := match hdr with
    | some h0 => h0
    | none =>
      match c.Headers with
      | some defaults => defaults
      | none => []
  if h.any (fun p => p.1 == "User-Agent") then h
  else h ++ [("User-Agent", c.UserAgent)]

/-- The seek step of `scrape`: a body implementing `io.ReadSeeker` is rewound
to the start (`Seek(0, io.SeekStart)`); any other body is left untouched. -/
def seekBody : Option BodyStream → Option BodyStream
  | some b => if b.seekable then some { b with pos := 0 } else some b
  | none => none

/-- The bytes `req.GetBody` replays after `http.NewRequest`: for a recognized
reopenable reader type, the snapshot of the bytes remaining at its current
position; nil otherwise. -/
def reqGetBody : Option BodyStream → Option (List Nat)
  | some b => if b.reopenable then some (b.data.drop b.pos) else none
  | none => none

/-- The data `scrape` hands to `fetch` after a successful admission check:
the prepared outbound headers, the (possibly rewound) body reader, and the
fingerprint store as updated by the revisit check. -/
structure ScrapeOk where
  headers : HeaderList
  body : Option BodyStream
  store : List Nat
deriving Repr, DecidableEq

/-- `Collector.scrape(u, method, depth, requestData, ctx, hdr, checkRevisit)`
up to the hand-off to `fetch`: prepare headers, rewind a seekable body, build
the request (fixing `GetBody`), run `requestCheck`; any admission failure
aborts before network I/O. `u` is the parsed URL string, `host` its
hostname. -/
def scrape (normalize : String → String) (c : Collector)
    (robots : Option RobotsOutcome) (u host method : String)
    (requestData : Option BodyStream) (hdr : Option HeaderList)
    (depth : Int) (checkRevisit : Bool) : Except CollyErr ScrapeOk :=
  let hdr2 := scrapeHeaders c hdr
  let bodyAfterSeek := seekBody requestData
  match requestCheck normalize c robots u host method (reqGetBody bodyAfterSeek)
      depth checkRevisit with
  | .error e => .error e
  | .ok st => .ok ⟨hdr2, bodyAfterSeek, st⟩

/-- `Collector.Head(URL)`: `scrape(URL, "HEAD", 1, nil, nil, nil, false)`. -/
def Collector.Head (normalize : String → String) (c : Collector)
    (robots : Option RobotsOutcome) (u host : String) : Except CollyErr ScrapeOk :=
  scrape normalize c robots u host "HEAD" none none 1 false

/-- `Header.Del`, restricted to exact-key deletion. -/
def delHeader (k : String) (h : HeaderList) : HeaderList :=
  h.filter (fun p => p.1 != k)

/-- Tail of the redirect interceptor after the filter and revisit steps:
delegate exclusively to a custom redirect handler when installed; otherwise
stop with `http.ErrUseLastResponse` at 10 or more prior hops, and strip the
`Authorization` header on a cross-host hop.  Returns (Go error, final request
headers, fingerprint store). -/
def finishRedirect (c : Collector) (req : RedirectReq) (via : List RedirectReq)
    (st : List Nat) : Option CollyErr × HeaderList × List Nat :=
  match c.redirectHandler with
  | some h => (h req via, req.headers, st)
  | none =>
    if via.length ≥ 10 then (some .useLastResponse, req.headers, st)
    else
      match via.getLast? with
      | some lastRequest =>
        if req.host ≠ lastRequest.host then (none, delHeader "Authorization" req.headers, st)
        else (none, req.headers, st)
      | none => (some .panicEmptyVia, req.headers, st)

/-- `Collector.checkRedirectFunc`: re-run the filters on the redirect target
(wrapping a failure); detect a same-document redirect (normalized target URL
equals the normalized URL of the first request of the chain); unless revisit
is globally allowed or the redirect is same-document, fingerprint the target
and check-and-record against the store; then `finishRedirect`. -/
def checkRedirectFunc (normalize : String → String) (c : Collector)
    (req : RedirectReq) (via : List RedirectReq) :
    Option CollyErr × HeaderList × List Nat :=
  match checkFilters c req.url req.hostname with
  | some e => (some (.notFollowingRedirect e), req.headers, c.store)
  | none =>
    match via with
    | [] => (some .panicEmptyVia, req.headers, c.store)
    | v0 :: rest =>
      if ¬ c.AllowURLRevisit ∧ ¬ normalize req.url = normalize v0.url then
        if requestHash normalize req.url req.getBody ∈ c.store then
          (some (.alreadyVisited req.url), req.headers, c.store)
        else
          finishRedirect c req (v0 :: rest)
            (requestHash normalize req.url req.getBody :: c.store)
      else
        finishRedirect c req (v0 :: rest) c.store

/-- Errors arising in the dispatch tail of `fetch`: an extraction error from
`handleOnHTML` / `handleOnXML`, or the error `handleOnError` synthesizes from
`http.StatusText` for a status ≥ 203. -/
inductive FetchErr where
  | extraction (msg : String)
  | httpStatus (code : Nat)
deriving Repr, DecidableEq

/-- Callback invocations observable in the dispatch tail of `fetch`. -/
inductive FetchEvent where
  | onResponse
  | onError (e : FetchErr)
  | onScraped
deriving Repr, DecidableEq

/-- The dispatch tail of `fetch` after the transport returned without a
transport error: `handleOnError` with a nil error fails the fetch for a
status ≥ 203 unless `ParseHTTPErrorResponse`; otherwise `handleOnResponse`
runs, then `handleOnHTML` and `handleOnXML` (whose outcomes depend on the
response content and registered callbacks, hence parameters `htmlErr`,
`xmlErr`), each routing its error into `handleOnError`; `handleOnScraped`
always runs last, and `fetch` returns the value of `err` at that point —
which the code last assigned from `handleOnXML`. -/
def fetchDispatch (parseHTTPErrorResponse : Bool) (statusCode : Nat)
    (htmlErr xmlErr : Option String) : List FetchEvent × Option FetchErr :=
  if parseHTTPErrorResponse ∨ statusCode < 203 then
    (FetchEvent.onResponse ::
      ((match htmlErr with
        | some e => [FetchEvent.onError (.extraction e)]
        | none => []) ++
       (match xmlErr with
        | some e => [FetchEvent.onError (.extraction e)]
        | none => []) ++
       [FetchEvent.onScraped]),
     xmlErr.map FetchErr.extraction)
  else
    ([FetchEvent.onError (.httpStatus statusCode)], some (.httpStatus statusCode))

/-- The `Collector` as left by `Collector.Init` (the fields of this model):
default user agent, nil default headers, no depth/request limits, empty
domain lists and filters, revisit disallowed, robots ignored, no custom
redirect handler, fresh in-memory store. -/
def initCollector : Collector where
  UserAgent := "colly - https://github.com/gocolly/colly/v2"
  Headers := none
  MaxDepth := 0
  MaxRequests := 0
  requestCount := 0
  AllowedDomains := []
  DisallowedDomains := []
  DisallowedURLFilters := []
  URLFilters := []
  AllowURLRevisit := false
  IgnoreRobotsTxt := true
  redirectHandler := none
  store := []

end Colly

namespace Colly

/-! ### Helper lemmas shared by several claims -/

theorem checkFilters_shape (c : Collector) (URL domain : String) :
    checkFilters c URL domain = some .forbiddenURL ∨
    checkFilters c URL domain = some .noURLFiltersMatch ∨
    checkFilters c URL domain = some .forbiddenDomain ∨
    checkFilters c URL domain = none := by
  unfold checkFilters
  split_ifs <;> simp

theorem robotsErr_shape (ro : RobotsOutcome) :
    robotsErr ro = .robotsTxtBlocked ∨ ∃ s, robotsErr ro = .other s := by
  cases ro <;> simp [robotsErr]

/-- Every error `requestCheck` can return, together with the fact that the
already-visited error arises only in the revisit branch. -/
theorem requestCheck_error_shape (normalize : String → String) (c : Collector)
    (robots : Option RobotsOutcome) (u host method : String)
    (getBody : Option (List Nat)) (depth : Int) (cr : Bool) (e : CollyErr)
    (h : requestCheck normalize c robots u host method getBody depth cr = .error e) :
    (e = .maxDepth ∧ 0 < c.MaxDepth ∧ c.MaxDepth < depth) ∨ e = .maxRequests ∨
    e = .forbiddenURL ∨ e = .noURLFiltersMatch ∨
    e = .forbiddenDomain ∨ e = .robotsTxtBlocked ∨ (∃ s, e = .other s) ∨
    (cr = true ∧ c.AllowURLRevisit = false ∧ e = .alreadyVisited u) := by
  unfold requestCheck at h
  split at h
  · rename_i h1
    simp only [Except.error.injEq] at h
    subst h
    exact Or.inl ⟨rfl, h1⟩
  split at h
  · simp only [Except.error.injEq] at h
    subst h
    tauto
  split at h
  · rename_i e0 heq
    simp only [Except.error.injEq] at h
    subst h
    rcases checkFilters_shape c u host with hf | hf | hf | hf <;>
      rw [heq] at hf <;> simp_all
  · split at h
    · rename_i e0 heq
      simp only [Except.error.injEq] at h
      subst h
      split at heq
      · cases robots with
        | none => simp at heq
        | some ro =>
          simp only [Option.map] at heq
          injection heq with heq
          subst heq
          cases ro <;> simp [robotsErr]
      · simp at heq
    · split at h
      · rename_i h4
        split at h
        · simp at h
        · split at h
          · simp only [Except.error.injEq] at h
            subst h
            simp only [Bool.not_eq_true] at h4
            exact Or.inr (Or.inr (Or.inr (Or.inr (Or.inr (Or.inr
              (Or.inr ⟨h4.1, h4.2, rfl⟩))))))
          · simp at h
      · simp at h

end Colly

namespace Colly

/-- Helper for C4: at the `requestCheck` level, the max-depth error occurs
exactly when a positive max depth is configured and exceeded. -/
theorem requestCheck_maxDepth_iff (normalize : String → String) (c : Collector)
    (robots : Option RobotsOutcome) (u host method : String)
    (getBody : Option (List Nat)) (depth : Int) (cr : Bool) :
    requestCheck normalize c robots u host method getBody depth cr
      = .error .maxDepth ↔ 0 < c.MaxDepth ∧ c.MaxDepth < depth := by
  constructor
  · intro h
    rcases requestCheck_error_shape normalize c robots u host method getBody depth cr _ h with
      ⟨_, hc⟩ | hh | hh | hh | hh | hh | ⟨s, hh⟩ | ⟨_, _, hh⟩
    · exact hc
    all_goals simp at hh
  · intro hd
    unfold requestCheck
    rw [if_pos hd]

/-- C4: for every collector and every well-formed URL, `scrape` at depth `d`
fails with the max-depth error (`ErrMaxDepth`) if and only if a positive
max-depth `M = c.MaxDepth` is configured and `d > M`; when `M` is zero (or
negative) or `d ≤ M` the depth check passes. -/
theorem scrape_maxDepth_iff (normalize : String → String) (c : Collector)
    (robots : Option RobotsOutcome) (u host method : String)
    (requestData : Option BodyStream) (hdr : Option HeaderList)
    (depth : Int) (cr : Bool) :
    scrape normalize c robots u host method requestData hdr depth cr
      = .error .maxDepth ↔ 0 < c.MaxDepth ∧ c.MaxDepth < depth := by
  simp only [scrape]
  have hrc := requestCheck_maxDepth_iff normalize c robots u host method
    (reqGetBody (seekBody requestData)) depth cr
  cases hh : requestCheck normalize c robots u host method
      (reqGetBody (seekBody requestData)) depth cr with
  | error e =>
    rw [hh] at hrc
    simpa using hrc
  | ok st =>
    rw [hh] at hrc
    simp at hrc
    simpa using hrc

/-- C5: `checkFilters` evaluates in order — (1) any disallowed-URL-filter
match fails `ErrForbiddenURL`; (2) else configured URL filters with no match
fail `ErrNoURLFiltersMatch`; (3) else the domain check decides: a domain in
the disallowed list is rejected (`ErrForbiddenDomain`); with a non-empty
allowed list the domain must appear in it by case-sensitive exact string
match; an empty/absent allowed list admits every domain not disallowed. -/
theorem checkFilters_ordered_semantics (c : Collector) (URL domain : String) :
    (isMatchingFilter c.DisallowedURLFilters URL = true →
      checkFilters c URL domain = some .forbiddenURL)
  ∧ (isMatchingFilter c.DisallowedURLFilters URL = false →
      c.URLFilters ≠ [] → isMatchingFilter c.URLFilters URL = false →
      checkFilters c URL domain = some .noURLFiltersMatch)
  ∧ (isMatchingFilter c.DisallowedURLFilters URL = false →
      (c.URLFilters = [] ∨ isMatchingFilter c.URLFilters URL = true) →
      checkFilters c URL domain =
        (if c.isDomainAllowed domain then none else some .forbiddenDomain))
  ∧ (domain ∈ c.DisallowedDomains → c.isDomainAllowed domain = false)
  ∧ (domain ∉ c.DisallowedDomains → c.AllowedDomains = [] →
      c.isDomainAllowed domain = true)
  ∧ (domain ∉ c.DisallowedDomains → c.AllowedDomains ≠ [] →
      (c.isDomainAllowed domain = true ↔ domain ∈ c.AllowedDomains)) := by
  refine ⟨?_, ?_, ?_, ?_, ?_, ?_⟩
  · intro hm
    have hlen : c.DisallowedURLFilters.length > 0 := by
      rcases hf : c.DisallowedURLFilters with _ | ⟨f, fs⟩
      · rw [hf] at hm
        simp [isMatchingFilter] at hm
      · simp
    unfold checkFilters
    rw [if_pos ⟨hlen, hm⟩]
  · intro h1 h2 h3
    unfold checkFilters
    simp [h1, h3, List.length_pos, h2]
  · intro h1 h2
    unfold checkFilters
    rcases h2 with h2 | h2 <;>
      cases hda : c.isDomainAllowed domain <;>
        simp [h1, h2, hda]
  · intro hm
    simp [Collector.isDomainAllowed, hm]
  · intro h1 h2
    simp [Collector.isDomainAllowed, h1, h2]
  · intro h1 h2
    simp [Collector.isDomainAllowed, h1, List.isEmpty_iff, h2]

end Colly

namespace Colly

/-- A concrete collector exercising the URL-filter and domain checks. -/
def filterWitnessCollector : Collector :=
  { initCollector with
    DisallowedURLFilters := [fun s => s == "http://bad.test/"]
    AllowedDomains := ["a.com"]
    DisallowedDomains := ["b.com"] }

theorem checkFilters_ordered_semantics_witness :
    checkFilters filterWitnessCollector "http://bad.test/" "a.com" = some .forbiddenURL
  ∧ (Collector.isDomainAllowed filterWitnessCollector "a.com" = true
      ↔ "a.com" ∈ filterWitnessCollector.AllowedDomains)
  ∧ Collector.isDomainAllowed filterWitnessCollector "b.com" = false := by
  refine ⟨?_, ?_, ?_⟩
  · exact (checkFilters_ordered_semantics filterWitnessCollector
      "http://bad.test/" "a.com").1 (by decide)
  · exact (checkFilters_ordered_semantics filterWitnessCollector
      "http://bad.test/" "a.com").2.2.2.2.2 (by decide) (by decide)
  · exact (checkFilters_ordered_semantics filterWitnessCollector
      "http://bad.test/" "b.com").2.2.2.1 (by decide)

/-- C6: `requestCheck` runs depth, request budget, policy filter, robots,
revisit in this fixed order and returns the first failure; the robots
consultation is ignored for method HEAD or when robots checking is disabled
(`IgnoreRobotsTxt`); the revisit check is skipped entirely when `checkRevisit`
is false or revisit is globally allowed, and also skipped (passing, with the
store untouched) for a non-GET method with no reopenable body. -/
theorem requestCheck_ordered_checks (normalize : String → String) (c : Collector)
    (robots robots2 : Option RobotsOutcome) (u host method : String)
    (getBody : Option (List Nat)) (depth : Int) (cr : Bool) :
    ((0 < c.MaxDepth ∧ c.MaxDepth < depth) →
      requestCheck normalize c robots u host method getBody depth cr
        = .error .maxDepth)
  ∧ (¬(0 < c.MaxDepth ∧ c.MaxDepth < depth) →
      (0 < c.MaxRequests ∧ c.MaxRequests ≤ c.requestCount) →
      requestCheck normalize c robots u host method getBody depth cr
        = .error .maxRequests)
  ∧ (∀ e, ¬(0 < c.MaxDepth ∧ c.MaxDepth < depth) →
      ¬(0 < c.MaxRequests ∧ c.MaxRequests ≤ c.requestCount) →
      checkFilters c u host = some e →
      requestCheck normalize c robots u host method getBody depth cr = .error e)
  ∧ ((method = "HEAD" ∨ c.IgnoreRobotsTxt = true) →
      requestCheck normalize c robots u host method getBody depth cr =
      requestCheck normalize c robots2 u host method getBody depth cr)
  ∧ (∀ ro, ¬(0 < c.MaxDepth ∧ c.MaxDepth < depth) →
      ¬(0 < c.MaxRequests ∧ c.MaxRequests ≤ c.requestCount) →
      checkFilters c u host = none →
      method ≠ "HEAD" → c.IgnoreRobotsTxt = false → robots = some ro →
      requestCheck normalize c robots u host method getBody depth cr
        = .error (robotsErr ro))
  ∧ ((cr = false ∨ c.AllowURLRevisit = true) →
      ¬(0 < c.MaxDepth ∧ c.MaxDepth < depth) →
      ¬(0 < c.MaxRequests ∧ c.MaxRequests ≤ c.requestCount) →
      checkFilters c u host = none →
      (method = "HEAD" ∨ c.IgnoreRobotsTxt = true ∨ robots = none) →
      requestCheck normalize c robots u host method getBody depth cr = .ok c.store)
  ∧ (cr = true → c.AllowURLRevisit = false → method ≠ "GET" → getBody = none →
      ¬(0 < c.MaxDepth ∧ c.MaxDepth < depth) →
      ¬(0 < c.MaxRequests ∧ c.MaxRequests ≤ c.requestCount) →
      checkFilters c u host = none →
      (method = "HEAD" ∨ c.IgnoreRobotsTxt = true ∨ robots = none) →
      requestCheck normalize c robots u host method getBody depth cr
        = .ok c.store) := by
  refine ⟨?_, ?_, ?_, ?_, ?_, ?_, ?_⟩
  · intro h
    unfold requestCheck
    rw [if_pos h]
  · intro h1 h2
    unfold requestCheck
    rw [if_neg h1, if_pos h2]
  · intro e h1 h2 hf
    simp [requestCheck, h1, h2, hf]
  · intro h
    rcases h with hm | hm <;> simp [requestCheck, hm]
  · intro ro h1 h2 hf hm hig hro
    simp [requestCheck, h1, h2, hf, hm, hig, hro]
  · intro hcr h1 h2 hf hrob
    rcases hcr with hcr | hcr <;> rcases hrob with hm | hm | hm <;>
      simp [requestCheck, h1, h2, hf, hcr, hm]
  · intro hcr hrv hmg hgb h1 h2 hf hrob
    rcases hrob with hm | hm | hm <;>
      simp [requestCheck, h1, h2, hf, hcr, hrv, hmg, hgb, hm]

theorem requestCheck_ordered_checks_witness :
    requestCheck id { initCollector with MaxDepth := 1 } none
      "http://x.test/" "x.test" "GET" none 2 true = .error .maxDepth
  ∧ requestCheck id initCollector (some .blocked)
      "http://x.test/" "x.test" "HEAD" none 1 true
    = requestCheck id initCollector none
      "http://x.test/" "x.test" "HEAD" none 1 true
  ∧ requestCheck id initCollector none
      "http://x.test/" "x.test" "POST" none 1 true = .ok [] := by
  refine ⟨?_, ?_, ?_⟩
  · exact (requestCheck_ordered_checks id { initCollector with MaxDepth := 1 }
      none none "http://x.test/" "x.test" "GET" none 2 true).1 (by decide)
  · exact (requestCheck_ordered_checks id initCollector
      (some .blocked) none "http://x.test/" "x.test" "HEAD" none 1 true).2.2.2.1
      (Or.inl rfl)
  · exact (requestCheck_ordered_checks id initCollector
      none none "http://x.test/" "x.test" "POST" none 1 true).2.2.2.2.2.2
      rfl rfl (by decide) rfl (by decide) (by decide) (by decide)
      (Or.inr (Or.inr rfl))

end Colly

namespace Colly

/-- Helper for C1: a GET admission against a store already holding the
request's fingerprint fails with the already-visited error. -/
theorem requestCheck_visited (normalize : String → String) (c : Collector)
    (robots : Option RobotsOutcome) (u host : String) (body : Option (List Nat))
    (depth : Int)
    (hdep : ¬(0 < c.MaxDepth ∧ c.MaxDepth < depth))
    (hbud : ¬(0 < c.MaxRequests ∧ c.MaxRequests ≤ c.requestCount))
    (hf : checkFilters c u host = none)
    (hrob : robots = none)
    (hrv : c.AllowURLRevisit = false)
    (hmem : requestHash normalize u body ∈ c.store) :
    requestCheck normalize c robots u host "GET" body depth true
      = .error (.alreadyVisited u) := by
  simp [requestCheck, hdep, hbud, hf, hrob, hrv, hmem]

/-- C1: for a dedup-enabled collector (`AllowURLRevisit` false, `checkRevisit`
true) and two URLs that normalize to the same string, with identical (or
absent) bodies, the first admission passes the revisit check and records the
fingerprint in the store, and the second fails with the already-visited
error.  The fingerprint equals the FNV-64a hash of the normalized URL bytes
concatenated with the body bytes — `requestHash` takes no method and no
headers, so the fingerprint cannot depend on them. -/
theorem dedup_first_accept_second_reject (normalize : String → String)
    (c : Collector) (robots : Option RobotsOutcome)
    (u1 u2 host1 host2 : String) (body : Option (List Nat)) (depth : Int)
    (hrv : c.AllowURLRevisit = false)
    (hnorm : normalize u1 = normalize u2)
    (hdep : ¬(0 < c.MaxDepth ∧ c.MaxDepth < depth))
    (hbud : ¬(0 < c.MaxRequests ∧ c.MaxRequests ≤ c.requestCount))
    (hf1 : checkFilters c u1 host1 = none)
    (hf2 : checkFilters c u2 host2 = none)
    (hrob : robots = none)
    (hfresh : requestHash normalize u1 body ∉ c.store) :
    requestCheck normalize c robots u1 host1 "GET" body depth true
      = .ok (requestHash normalize u1 body :: c.store)
  ∧ requestCheck normalize
      { c with store := requestHash normalize u1 body :: c.store }
      robots u2 host2 "GET" body depth true
      = .error (.alreadyVisited u2)
  ∧ requestHash normalize u2 body = requestHash normalize u1 body
  ∧ requestHash normalize u1 body
      = fnv64a (strBytes (normalize u1) ++ body.getD []) := by
  have hh : requestHash normalize u2 body = requestHash normalize u1 body := by
    unfold requestHash
    rw [hnorm]
  refine ⟨?_, ?_, hh, rfl⟩
  · simp [requestCheck, hdep, hbud, hf1, hrob, hrv, hfresh]
  · exact requestCheck_visited normalize
      { c with store := requestHash normalize u1 body :: c.store }
      robots u2 host2 body depth hdep hbud hf2 hrob hrv
      (by rw [hh]; exact List.mem_cons_self _ _)

theorem dedup_first_accept_second_reject_witness :
    requestCheck id initCollector none "http://x.test/" "x.test" "GET" none 1 true
      = .ok [requestHash id "http://x.test/" none]
  ∧ requestCheck id
      { initCollector with store := [requestHash id "http://x.test/" none] }
      none "http://x.test/" "x.test" "GET" none 1 true
      = .error (.alreadyVisited "http://x.test/") := by
  have h := dedup_first_accept_second_reject id initCollector none
    "http://x.test/" "http://x.test/" "x.test" "x.test" none 1
    rfl rfl (by decide) (by decide) (by decide) (by decide) rfl
    (by simp [initCollector])
  exact ⟨h.1, h.2.1⟩

/-- Helper for C10: with `checkRevisit` false, a successful `requestCheck`
returns the store unchanged (the revisit branch is never entered). -/
theorem requestCheck_ok_noRevisit (normalize : String → String) (c : Collector)
    (robots : Option RobotsOutcome) (u host method : String)
    (getBody : Option (List Nat)) (depth : Int) (st : List Nat)
    (h : requestCheck normalize c robots u host method getBody depth false = .ok st) :
    st = c.store := by
  unfold requestCheck at h
  split at h
  · simp at h
  split at h
  · simp at h
  split at h
  · simp at h
  · split at h
    · simp at h
    · split at h
      · rename_i h4
        simp at h4
      · simp only [Except.ok.injEq] at h
        exact h.symm

/-- C10: `Head(URL)` is `scrape` with `checkRevisit = false`, so a Head call
never fails with the already-visited error and never changes the visited
store; a repeated Head call on the resulting collector state is admitted with
the same outcome. -/
theorem head_skips_revisit (normalize : String → String) (c : Collector)
    (robots : Option RobotsOutcome) (u host : String) :
    Collector.Head normalize c robots u host
      = scrape normalize c robots u host "HEAD" none none 1 false
  ∧ (∀ u2, Collector.Head normalize c robots u host ≠ .error (.alreadyVisited u2))
  ∧ (∀ st, Collector.Head normalize c robots u host = .ok st → st.store = c.store)
  ∧ (∀ st, Collector.Head normalize c robots u host = .ok st →
      Collector.Head normalize { c with store := st.store } robots u host = .ok st) := by
  have hstore : ∀ st, Collector.Head normalize c robots u host = .ok st →
      st.store = c.store := by
    intro st h
    simp only [Collector.Head, scrape] at h
    cases hh : requestCheck normalize c robots u host "HEAD"
        (reqGetBody (seekBody none)) 1 false with
    | error e =>
      rw [hh] at h
      simp at h
    | ok st0 =>
      rw [hh] at h
      simp only [Except.ok.injEq] at h
      rw [← h]
      exact requestCheck_ok_noRevisit normalize c robots u host "HEAD"
        (reqGetBody (seekBody none)) 1 st0 hh
  refine ⟨rfl, ?_, hstore, ?_⟩
  · intro u2 h
    simp only [Collector.Head, scrape] at h
    cases hh : requestCheck normalize c robots u host "HEAD"
        (reqGetBody (seekBody none)) 1 false with
    | ok st0 =>
      rw [hh] at h
      simp at h
    | error e =>
      rw [hh] at h
      simp only [Except.error.injEq] at h
      subst h
      rcases requestCheck_error_shape normalize c robots u host "HEAD"
          (reqGetBody (seekBody none)) 1 false _ hh with
        ⟨h1, _⟩ | h1 | h1 | h1 | h1 | h1 | ⟨s, h1⟩ | ⟨h1, _, _⟩ <;> simp at h1
  · intro st h
    have h3 := hstore st h
    rw [h3]
    exact h

theorem head_skips_revisit_witness :
    Collector.Head id initCollector none "http://x.test/" "x.test"
      = .ok ⟨[("User-Agent", "colly - https://github.com/gocolly/colly/v2")], none, []⟩
  ∧ (⟨[("User-Agent", "colly - https://github.com/gocolly/colly/v2")],
      none, []⟩ : ScrapeOk).store = initCollector.store := by
  have h := head_skips_revisit id initCollector none "http://x.test/" "x.test"
  exact ⟨rfl, h.2.2.1 _ rfl⟩

end Colly

namespace Colly

/-- C2 counterexample: with collector default `Headers` holding `X-Token: 1`
and a non-nil caller header set holding `Accept: text/plain`, the outbound
header set is exactly the caller's set plus the injected `User-Agent` — the
collector default entry is absent, so the result is not the merge of the two
sets. -/
theorem scrapeHeaders_no_merge_counterexample :
    scrapeHeaders { initCollector with Headers := some [("X-Token", "1")] }
        (some [("Accept", "text/plain")])
      = [("Accept", "text/plain"),
         ("User-Agent", "colly - https://github.com/gocolly/colly/v2")]
  ∧ ("X-Token", "1") ∉ scrapeHeaders
        { initCollector with Headers := some [("X-Token", "1")] }
        (some [("Accept", "text/plain")]) := by
  constructor
  · rfl
  · decide

/-- C2 amended: the collector's default `Headers` are copied only when the
caller passes a nil header set; a non-nil caller header set is used as-is
(defaults are ignored), and in either case the collector's `UserAgent` is
injected when the set has no `User-Agent` key. -/
theorem scrapeHeaders_caller_headers_win (c : Collector) (h d : HeaderList)
    (hd : c.Headers = some d) :
    (∀ p, p ∈ scrapeHeaders c (some h) → p ∈ h ∨ p = ("User-Agent", c.UserAgent))
  ∧ (∀ p, p ∈ h → p ∈ scrapeHeaders c (some h))
  ∧ (h.any (fun p => p.1 == "User-Agent") = false →
      ("User-Agent", c.UserAgent) ∈ scrapeHeaders c (some h))
  ∧ scrapeHeaders c none
      = (if d.any (fun p => p.1 == "User-Agent") then d
         else d ++ [("User-Agent", c.UserAgent)]) := by
  refine ⟨?_, ?_, ?_, ?_⟩
  · intro p hp
    simp only [scrapeHeaders] at hp
    split at hp
    · exact Or.inl hp
    · rcases List.mem_append.mp hp with hp | hp
      · exact Or.inl hp
      · simp at hp
        exact Or.inr (by simp [hp])
  · intro p hp
    simp only [scrapeHeaders]
    split
    · exact hp
    · exact List.mem_append.mpr (Or.inl hp)
  · intro hua
    simp [scrapeHeaders, hua]
  · simp only [scrapeHeaders]
    rw [hd]

theorem scrapeHeaders_caller_headers_win_witness :
    ("Accept", "text/plain") ∈ scrapeHeaders
      { initCollector with Headers := some [("X-Token", "1")] }
      (some [("Accept", "text/plain")])
  ∧ ("User-Agent", "colly - https://github.com/gocolly/colly/v2") ∈ scrapeHeaders
      { initCollector with Headers := some [("X-Token", "1")] }
      (some [("Accept", "text/plain")]) := by
  have hw := scrapeHeaders_caller_headers_win
    { initCollector with Headers := some [("X-Token", "1")] }
    [("Accept", "text/plain")] [("X-Token", "1")] rfl
  exact ⟨hw.2.1 _ (by simp), hw.2.2.1 (by decide)⟩

/-- C3 counterexample: a call to `scrape` with `checkRevisit` true and a
non-nil, non-seekable request body does not fail with
`ErrRetryBodyUnseekable` — it is admitted (the revisit check is skipped for
the non-GET method with nil `GetBody`) and the body is passed on untouched. -/
theorem scrape_unseekable_counterexample :
    scrape id initCollector none "http://x.test/" "x.test" "POST"
        (some ⟨[1, 2, 3], 1, false, false⟩) none 1 true
      = .ok ⟨[("User-Agent", "colly - https://github.com/gocolly/colly/v2")],
             some ⟨[1, 2, 3], 1, false, false⟩, []⟩ := by
  rfl

/-- C3 amended: `scrape` never returns `ErrRetryBodyUnseekable` (the error
value is declared in `result.go` but no code path produces it); when the body
is seekable it is rewound to position 0 before fingerprinting (the `GetBody`
snapshot then replays the full data) and before sending (the body handed to
`fetch` is the rewound stream). -/
theorem scrape_body_seek_semantics (normalize : String → String) (c : Collector)
    (robots : Option RobotsOutcome) (u host method : String)
    (hdr : Option HeaderList) (depth : Int) (cr : Bool) (b : BodyStream)
    (hseek : b.seekable = true) :
    (∀ requestData, scrape normalize c robots u host method requestData hdr depth cr
        ≠ .error .retryBodyUnseekable)
  ∧ seekBody (some b) = some { b with pos := 0 }
  ∧ reqGetBody (seekBody (some b)) = (if b.reopenable then some b.data else none)
  ∧ (∀ st, scrape normalize c robots u host method (some b) hdr depth cr = .ok st →
      st.body = some { b with pos := 0 }) := by
  refine ⟨?_, ?_, ?_, ?_⟩
  · intro rd hcontra
    simp only [scrape] at hcontra
    cases hh : requestCheck normalize c robots u host method
        (reqGetBody (seekBody rd)) depth cr with
    | ok st =>
      rw [hh] at hcontra
      simp at hcontra
    | error e =>
      rw [hh] at hcontra
      simp only [Except.error.injEq] at hcontra
      subst hcontra
      rcases requestCheck_error_shape normalize c robots u host method
          (reqGetBody (seekBody rd)) depth cr _ hh with
        ⟨h1, _⟩ | h1 | h1 | h1 | h1 | h1 | ⟨s, h1⟩ | ⟨_, _, h1⟩ <;> simp at h1
  · simp [seekBody, hseek]
  · simp [seekBody, reqGetBody, hseek]
  · intro st h
    simp only [scrape] at h
    cases hh : requestCheck normalize c robots u host method
        (reqGetBody (seekBody (some b))) depth cr with
    | error e =>
      rw [hh] at h
      simp at h
    | ok st0 =>
      rw [hh] at h
      simp only [Except.ok.injEq] at h
      rw [← h]
      simp [seekBody, hseek]

theorem scrape_body_seek_semantics_witness :
    seekBody (some ⟨[7, 8], 2, true, true⟩) = some ⟨[7, 8], 0, true, true⟩
  ∧ reqGetBody (seekBody (some ⟨[7, 8], 2, true, true⟩)) = some [7, 8]
  ∧ scrape id initCollector none "http://x.test/" "x.test" "PUT"
        (some ⟨[7, 8], 2, true, true⟩) none 1 false
      ≠ .error .retryBodyUnseekable := by
  have h := scrape_body_seek_semantics id initCollector none "http://x.test/"
    "x.test" "PUT" none 1 false ⟨[7, 8], 2, true, true⟩ rfl
  exact ⟨h.2.1, h.2.2.1, h.1 _⟩

end Colly

namespace Colly

/-- The store component of `finishRedirect` is whatever store it was given:
the hop-cap / handler / header-stripping logic never touches the store. -/
theorem finishRedirect_store (c : Collector) (req : RedirectReq)
    (via : List RedirectReq) (st : List Nat) :
    (finishRedirect c req via st).2.2 = st := by
  unfold finishRedirect
  cases hR : c.redirectHandler with
  | some f => rfl
  | none =>
    by_cases hlen : via.length ≥ 10
    · simp [hlen]
    · cases hL : via.getLast? with
      | some lastRequest =>
        by_cases hh : req.host ≠ lastRequest.host <;> simp [hlen, hL, hh]
      | none => simp [hlen, hL]

/-- C7: for a redirect whose target passes the filters, a same-document
redirect (normalized target URL equal to the normalized URL of the first
request in the chain) skips the revisit check — the fingerprint store is
left untouched; otherwise, with revisit not globally allowed, an
already-present fingerprint aborts the redirect with the already-visited
error (store unchanged), and a fresh fingerprint is recorded in the store. -/
theorem redirect_revisit_semantics (normalize : String → String) (c : Collector)
    (req v0 : RedirectReq) (rest : List RedirectReq)
    (hfil : checkFilters c req.url req.hostname = none) :
    (normalize req.url = normalize v0.url →
      (checkRedirectFunc normalize c req (v0 :: rest)).2.2 = c.store)
  ∧ (normalize req.url ≠ normalize v0.url → c.AllowURLRevisit = false →
      requestHash normalize req.url req.getBody ∈ c.store →
      checkRedirectFunc normalize c req (v0 :: rest)
        = (some (.alreadyVisited req.url), req.headers, c.store))
  ∧ (normalize req.url ≠ normalize v0.url → c.AllowURLRevisit = false →
      requestHash normalize req.url req.getBody ∉ c.store →
      (checkRedirectFunc normalize c req (v0 :: rest)).2.2
        = requestHash normalize req.url req.getBody :: c.store) := by
  refine ⟨?_, ?_, ?_⟩
  · intro hsame
    simp [checkRedirectFunc, hfil, hsame, finishRedirect_store]
  · intro hsame hrv hmem
    simp [checkRedirectFunc, hfil, hsame, hrv, hmem]
  · intro hsame hrv hmem
    simp [checkRedirectFunc, hfil, hsame, hrv, hmem, finishRedirect_store]

theorem redirect_revisit_semantics_witness :
    (checkRedirectFunc id initCollector
        ⟨"http://a.test/", "a.test", "a.test", none, []⟩
        [⟨"http://a.test/", "a.test", "a.test", none, []⟩]).2.2 = []
  ∧ (checkRedirectFunc id initCollector
        ⟨"http://b.test/", "b.test", "b.test", none, []⟩
        [⟨"http://a.test/", "a.test", "a.test", none, []⟩]).2.2
      = [requestHash id "http://b.test/" none] := by
  constructor
  · exact (redirect_revisit_semantics id initCollector
      ⟨"http://a.test/", "a.test", "a.test", none, []⟩
      ⟨"http://a.test/", "a.test", "a.test", none, []⟩ [] (by decide)).1 rfl
  · exact (redirect_revisit_semantics id initCollector
      ⟨"http://b.test/", "b.test", "b.test", none, []⟩
      ⟨"http://a.test/", "a.test", "a.test", none, []⟩ [] (by decide)).2.2
      (by decide) rfl (by simp [initCollector])

/-- Helper for C8: once the filter and revisit steps have passed,
`checkRedirectFunc` is `finishRedirect` at some store. -/
theorem checkRedirectFunc_eq_finish (normalize : String → String) (c : Collector)
    (req v0 : RedirectReq) (rest : List RedirectReq)
    (hfil : checkFilters c req.url req.hostname = none)
    (hpass : ¬c.AllowURLRevisit = true → normalize req.url ≠ normalize v0.url →
      requestHash normalize req.url req.getBody ∉ c.store) :
    ∃ st, checkRedirectFunc normalize c req (v0 :: rest)
      = finishRedirect c req (v0 :: rest) st := by
  simp only [checkRedirectFunc, hfil]
  by_cases hcond : ¬c.AllowURLRevisit = true ∧ ¬normalize req.url = normalize v0.url
  · rw [if_pos hcond, if_neg (hpass hcond.1 hcond.2)]
    exact ⟨_, rfl⟩
  · rw [if_neg hcond]
    exact ⟨_, rfl⟩

/-- C8: after the filter and revisit checks of the redirect interceptor, an
installed custom redirect handler is consulted exclusively and its return
value is authoritative (headers untouched); with no handler, a chain of 10 or
more prior hops stops following with the `http.ErrUseLastResponse` sentinel
(not a failure of the hop's checks); below the cap the redirect proceeds and
the `Authorization` header is deleted exactly when the target's host differs
from the host of the immediately preceding request in the chain. -/
theorem redirect_handler_cap_auth (normalize : String → String) (c : Collector)
    (req v0 : RedirectReq) (rest : List RedirectReq)
    (hfil : checkFilters c req.url req.hostname = none)
    (hpass : ¬c.AllowURLRevisit = true → normalize req.url ≠ normalize v0.url →
      requestHash normalize req.url req.getBody ∉ c.store) :
    (∀ f, c.redirectHandler = some f →
      (checkRedirectFunc normalize c req (v0 :: rest)).1 = f req (v0 :: rest)
      ∧ (checkRedirectFunc normalize c req (v0 :: rest)).2.1 = req.headers)
  ∧ (c.redirectHandler = none → (v0 :: rest).length ≥ 10 →
      (checkRedirectFunc normalize c req (v0 :: rest)).1 = some .useLastResponse
      ∧ (checkRedirectFunc normalize c req (v0 :: rest)).2.1 = req.headers)
  ∧ (c.redirectHandler = none → (v0 :: rest).length < 10 →
      (checkRedirectFunc normalize c req (v0 :: rest)).1 = none
      ∧ (checkRedirectFunc normalize c req (v0 :: rest)).2.1
          = (if req.host ≠ (rest.getLastD v0).host
             then delHeader "Authorization" req.headers
             else req.headers)) := by
  obtain ⟨st, hst⟩ := checkRedirectFunc_eq_finish normalize c req v0 rest hfil hpass
  rw [hst]
  refine ⟨?_, ?_, ?_⟩
  · intro f hR
    simp [finishRedirect, hR]
  · intro hR hlen
    have hlen9 : 9 ≤ rest.length := by
      simp only [List.length_cons] at hlen
      omega
    constructor <;> simp [finishRedirect, hR, hlen9]
  · intro hR hlen
    have hlen9 : ¬ 9 ≤ rest.length := by
      simp only [List.length_cons] at hlen
      omega
    have hlast : (v0 :: rest).getLast? = some (rest.getLastD v0) := by
      simp [List.getLast?_cons]
    constructor
    · by_cases hhost : req.host = (rest.getLast?.getD v0).host <;>
        simp [finishRedirect, hR, hlen9, hlast, hhost]
    · by_cases hhost : req.host = (rest.getLast?.getD v0).host <;>
        simp [finishRedirect, hR, hlen9, hlast, hhost]

end Colly

namespace Colly

theorem redirect_handler_cap_auth_witness :
    (checkRedirectFunc id initCollector
        ⟨"http://b.test/", "b.test", "b.test", none,
         [("Authorization", "secret"), ("Accept", "x")]⟩
        [⟨"http://a.test/", "a.test", "a.test", none, []⟩]).1 = none
  ∧ (checkRedirectFunc id initCollector
        ⟨"http://b.test/", "b.test", "b.test", none,
         [("Authorization", "secret"), ("Accept", "x")]⟩
        [⟨"http://a.test/", "a.test", "a.test", none, []⟩]).2.1
      = [("Accept", "x")] := by
  have h := (redirect_handler_cap_auth id initCollector
      ⟨"http://b.test/", "b.test", "b.test", none,
       [("Authorization", "secret"), ("Accept", "x")]⟩
      ⟨"http://a.test/", "a.test", "a.test", none, []⟩ []
      (by decide) (fun _ _ => by simp [initCollector])).2.2 rfl (by decide)
  refine ⟨h.1, ?_⟩
  rw [h.2]
  decide

/-- C9 confirmed part and amended part: for a response the dispatcher treats
as success (`ParseHTTPErrorResponse` set, or status below 203), the Scraped
callbacks run unconditionally — also when the HTML or XML extraction phase
produced an error, and every extraction error reaches the Error callbacks —
but `fetch` returns only the error of the XML phase (the code's final
assignment to `err`), not an HTML-phase error. -/
theorem fetch_dispatch_semantics (parse : Bool) (status : Nat)
    (htmlErr xmlErr : Option String)
    (hok : parse = true ∨ status < 203) :
    FetchEvent.onScraped ∈ (fetchDispatch parse status htmlErr xmlErr).1
  ∧ (fetchDispatch parse status htmlErr xmlErr).2 = xmlErr.map FetchErr.extraction
  ∧ (∀ e, htmlErr = some e →
      FetchEvent.onError (.extraction e) ∈ (fetchDispatch parse status htmlErr xmlErr).1)
  ∧ (∀ e, xmlErr = some e →
      FetchEvent.onError (.extraction e) ∈ (fetchDispatch parse status htmlErr xmlErr).1) := by
  have hcond : parse = true ∨ status < 203 := hok
  refine ⟨?_, ?_, ?_, ?_⟩
  · simp only [fetchDispatch, if_pos hcond]
    simp
  · simp only [fetchDispatch, if_pos hcond]
  · intro e he
    simp only [fetchDispatch, if_pos hcond, he]
    simp
  · intro e he
    simp only [fetchDispatch, if_pos hcond, he]
    simp

/-- C9 counterexample: status 200, HTML extraction phase failed, XML phase
returned nil — the Error and Scraped callbacks both fire, but `fetch` returns
nil (`err` was overwritten by the XML phase), not the extraction error. -/
theorem fetch_returns_nil_after_html_error :
    (fetchDispatch false 200 (some "html parse failed") none).2 = none
  ∧ FetchEvent.onError (.extraction "html parse failed")
      ∈ (fetchDispatch false 200 (some "html parse failed") none).1
  ∧ FetchEvent.onScraped ∈ (fetchDispatch false 200 (some "html parse failed") none).1 := by
  refine ⟨rfl, ?_, ?_⟩ <;> decide

theorem fetch_dispatch_semantics_witness :
    FetchEvent.onScraped ∈ (fetchDispatch false 200 (some "boom") (some "xml boom")).1
  ∧ (fetchDispatch false 200 (some "boom") (some "xml boom")).2
      = some (.extraction "xml boom")
  ∧ FetchEvent.onError (.extraction "boom")
      ∈ (fetchDispatch false 200 (some "boom") (some "xml boom")).1 := by
  have h := fetch_dispatch_semantics false 200 (some "boom") (some "xml boom")
    (Or.inr (by decide))
  exact ⟨h.1, h.2.1, h.2.2.1 _ rfl⟩

end Colly
